import Mathlib

/-!
Shallow embedding of the 8Byte portfolio-refresh subsystem.

Numbers are modelled as rationals (JS numbers, with `Math.round` as
round-half-toward-positive-infinity).  Fallible external interactions
(Redis reads/writes, HTTP fetches) are modelled as `Except Unit`-valued
oracle fields of an environment record; a thrown JS exception is the
`.error` case.  Each embedded function also returns the list of
cache/network events it performed, so frame claims about untouched
providers can be stated.
-/

deriving instance DecidableEq for Except

namespace EightByte

/-- JS `Math.round`: round half toward positive infinity. -/
def jsRound (x : ℚ) : ℤ := ⌊x + 1/2⌋

/-- Two-decimal rounding, as the source's `Math.round(x * 100) / 100`. -/
def round2 (x : ℚ) : ℚ := (jsRound (x * 100) : ℚ) / 100

/-- The `QuoteResult` shape of `fetchQuote` (all fields nullable). -/
structure QuoteResult where
  cmp : Option ℚ
  previousClose : Option ℚ
  peRatio : Option ℚ
  latestEarnings : Option String
deriving DecidableEq, Repr

/-- The all-null quote result returned on total failure. -/
def QuoteResult.allNull : QuoteResult := ⟨none, none, none, none⟩

/-- The three quote providers / quote-cache sources. -/
inductive Source
  | nse
  | yahoo
  | google
deriving DecidableEq, Repr

/-- An observable external effect of the quote-fetch chain. -/
inductive Event
  | cacheRead (s : Source)
  | cacheWrite (s : Source)
  | netFetch (s : Source)
deriving DecidableEq, Repr

/-- The provider a given event touches. -/
def Event.src : Event → Source
  | .cacheRead s => s
  | .cacheWrite s => s
  | .netFetch s => s

@[simp] lemma Event.src_cacheRead (s : Source) : (Event.cacheRead s).src = s := rfl

@[simp] lemma Event.src_cacheWrite (s : Source) : (Event.cacheWrite s).src = s := rfl

@[simp] lemma Event.src_netFetch (s : Source) : (Event.netFetch s).src = s := rfl

/-- Parsed fields of a 200 JSON-object NSE quote response
(`priceInfo.lastPrice`, `priceInfo.previousClose`, `metadata.pdSectorPe`;
`pdSectorPe` is `some` only when present, not "N/A"/"" and finite). -/
structure NseData where
  lastPrice : Option ℚ
  previousClose : Option ℚ
  pdSectorPe : Option ℚ
deriving DecidableEq, Repr

/-- Parsed `meta` fields of a Yahoo v8 chart response. -/
structure YahooMeta where
  regularMarketPrice : Option ℚ
  previousClose : Option ℚ
deriving DecidableEq, Repr

/-- Regex-extraction results from the Google Finance HTML page
(the numeric P/E match before the sanity check, and the trimmed
earnings-date match). -/
structure GoogleParsed where
  peMatch : Option ℚ
  earningsMatch : Option String
deriving DecidableEq, Repr

/-- Oracle environment for one `fetchQuote` call: the outcome of every
external interaction it may perform.  `.error ()` is a thrown JS
exception; cache reads yield `none` on a cache miss. -/
structure FetchEnv where
  nseCache : Except Unit (Option QuoteResult)
  nseNet : Except Unit (Nat × Option NseData)
  nseWrite : Except Unit Unit
  yahooCache : Except Unit (Option (Option ℚ × Option ℚ))
  yahooNet : Except Unit YahooMeta
  yahooWrite : Except Unit Unit
  googleCache : Except Unit (Option (Option ℚ × Option String))
  googleNet : Except Unit GoogleParsed
  googleWrite : Except Unit Unit
deriving DecidableEq, Repr

/-- `fetchYahooCmp`: Yahoo cache read (outside the try/catch), then the
chart fetch; `cmp` is `regularMarketPrice ?? previousClose ?? null`;
the cache is written only when `cmp` is non-null, and a throw during
fetch or cache write is caught, yielding `{cmp: null, previousClose: null}`. -/
def fetchYahooCmp (env : FetchEnv) :
    Except Unit (Option ℚ × Option ℚ) × List Event :=
  match env.yahooCache with
  | .error _ => (.error (), [.cacheRead .yahoo])
  | .ok (some (some c, p)) => (.ok (some c, p), [.cacheRead .yahoo])
  | .ok _ =>
    match env.yahooNet with
    | .error _ => (.ok (none, none), [.cacheRead .yahoo, .netFetch .yahoo])
    | .ok meta =>
      let cmp := meta.regularMarketPrice.orElse fun _ => meta.previousClose
      let prev := meta.previousClose
      match cmp with
      | some c =>
        match env.yahooWrite with
        | .ok _ => (.ok (some c, prev),
            [.cacheRead .yahoo, .netFetch .yahoo, .cacheWrite .yahoo])
        | .error _ => (.ok (none, none),
            [.cacheRead .yahoo, .netFetch .yahoo, .cacheWrite .yahoo])
      | none => (.ok (none, none), [.cacheRead .yahoo, .netFetch .yahoo])

/-- The source's finiteness/range sanity check on the matched P/E value:
`Number.isFinite(n) && n > 0 && n < 1e6` (rationals are always finite). -/
def googlePeSanity (n : ℚ) : Option ℚ :=
  if 0 < n ∧ n < 1000000 then some n else none

/-- `fetchGooglePeAndEarnings`: Google cache read (outside the try/catch,
hit only when it holds a non-null peRatio or latestEarnings), then the
HTML fetch and regex extraction; the cache is written only when a field
was extracted, and a throw during fetch or write is caught, yielding
all-null. -/
def fetchGooglePeAndEarnings (env : FetchEnv) :
    Except Unit (Option ℚ × Option String) × List Event :=
  let net : Except Unit (Option ℚ × Option String) × List Event :=
    match env.googleNet with
    | .error _ => (.ok (none, none), [.cacheRead .google, .netFetch .google])
    | .ok g =>
      let peRatio := match g.peMatch with
        | some n => googlePeSanity n
        | none => none
      let latestEarnings := g.earningsMatch
      if peRatio.isSome || latestEarnings.isSome then
        match env.googleWrite with
        | .ok _ => (.ok (peRatio, latestEarnings),
            [.cacheRead .google, .netFetch .google, .cacheWrite .google])
        | .error _ => (.ok (none, none),
            [.cacheRead .google, .netFetch .google, .cacheWrite .google])
      else
        (.ok (peRatio, latestEarnings), [.cacheRead .google, .netFetch .google])
  match env.googleCache with
  | .error _ => (.error (), [.cacheRead .google])
  | .ok (some (pe, earn)) =>
    if pe.isSome || earn.isSome then (.ok (pe, earn), [.cacheRead .google])
    else net
  | .ok none => net

/-- The `if (nseFailed)` fallback of `fetchQuote`: Yahoo for the price;
Google is reached only when Yahoo yielded a non-null cmp. -/
def fetchQuoteFallback (env : FetchEnv) (tr : List Event) :
    Except Unit QuoteResult × List Event :=
  match fetchYahooCmp env with
  | (.error _, ytr) => (.error (), tr ++ ytr)
  | (.ok (some c, yprev), ytr) =>
    match fetchGooglePeAndEarnings env with
    | (.error _, gtr) => (.error (), tr ++ ytr ++ gtr)
    | (.ok (pe, earn), gtr) => (.ok ⟨some c, yprev, pe, earn⟩, tr ++ ytr ++ gtr)
  | (.ok (none, _), ytr) => (.ok .allNull, tr ++ ytr)

/-- The NSE network attempt of `fetchQuote` (its try block after the
cache miss) together with the fallback decision: any throw, a non-200
status or a non-object body sets `nseFailed`; a successful parse with a
price returns after the NSE cache write (a throwing write falls into the
catch, setting `nseFailed`); a 200 object response with both price
fields missing leaves `nseFailed` false and returns all-null. -/
def fetchQuoteNet (env : FetchEnv) : Except Unit QuoteResult × List Event :=
  match env.nseNet with
  | .error _ => fetchQuoteFallback env [.cacheRead .nse, .netFetch .nse]
  | .ok (status, dataObj) =>
    if status ≠ 200 then fetchQuoteFallback env [.cacheRead .nse, .netFetch .nse]
    else
      match dataObj with
      | none => fetchQuoteFallback env [.cacheRead .nse, .netFetch .nse]
      | some d =>
        let cmp := d.lastPrice
        let prev := d.previousClose
        let out : QuoteResult := ⟨cmp, prev, d.pdSectorPe, none⟩
        if cmp.isSome || prev.isSome then
          match env.nseWrite with
          | .ok _ => (.ok out, [.cacheRead .nse, .netFetch .nse, .cacheWrite .nse])
          | .error _ =>
            fetchQuoteFallback env [.cacheRead .nse, .netFetch .nse, .cacheWrite .nse]
        else
          (.ok .allNull, [.cacheRead .nse, .netFetch .nse])

/-- `fetchQuote`: NSE cache read (outside the try/catch, so a throwing
read propagates), returning the cached quote when it has a non-null cmp
or previousClose; otherwise the NSE network attempt with the
Yahoo/Google fallback. -/
def fetchQuote (env : FetchEnv) : Except Unit QuoteResult × List Event :=
  match env.nseCache with
  | .error _ => (.error (), [.cacheRead .nse])
  | .ok (some q) =>
    if q.cmp.isSome || q.previousClose.isSome then (.ok q, [.cacheRead .nse])
    else fetchQuoteNet env
  | .ok none => fetchQuoteNet env

/-- Does any event of the trace touch the given source (its cache or
its network endpoint)? -/
def touchesSource (s : Source) (tr : List Event) : Bool :=
  tr.any fun e => e.src == s

/-- The NSE quote-cache read returned a usable cached quote (non-null
cmp or previousClose). -/
def nseCacheUsableHit (env : FetchEnv) : Bool :=
  match env.nseCache with
  | .ok (some q) => q.cmp.isSome || q.previousClose.isSome
  | _ => false

/-- The value of the source's `nseFailed` flag after the NSE try block:
true on a thrown fetch, a non-200 status, a non-object body, or a
throwing NSE cache write after a successful parse; false both on a
successful parse-and-cache and on a 200 object response missing both
price fields. -/
def nseBranchFailed (env : FetchEnv) : Bool :=
  match env.nseNet with
  | .error _ => true
  | .ok (status, dataObj) =>
    if status ≠ 200 then true
    else
      match dataObj with
      | none => true
      | some d =>
        if d.lastPrice.isSome || d.previousClose.isSome then
          match env.nseWrite with
          | .ok _ => false
          | .error _ => true
        else false

/-- The Yahoo step of the fallback yields a non-null cmp. -/
def yahooYieldsCmp (env : FetchEnv) : Bool :=
  match fetchYahooCmp env with
  | (.ok (some _, _), _) => true
  | _ => false

/-- The NSE path of `fetchQuote` succeeds: a usable cache hit, or a
200 object response with a price whose NSE cache write went through. -/
def nseSucceeds (env : FetchEnv) : Bool :=
  nseCacheUsableHit env ||
  ((match env.nseCache with | .ok _ => true | .error _ => false) &&
   (match env.nseNet with
    | .ok (status, some d) =>
      status == 200 && (d.lastPrice.isSome || d.previousClose.isSome)
    | _ => false) &&
   (match env.nseWrite with | .ok _ => true | .error _ => false))

lemma fetchYahooCmp_trace_src (env : FetchEnv) :
    ∀ e ∈ (fetchYahooCmp env).2, e.src = Source.yahoo := by
  unfold fetchYahooCmp
  rcases env.yahooCache with _ | v
  · simp [Event.src]
  · rcases v with _ | ⟨c, p⟩
    · rcases env.yahooNet with _ | meta
      · simp [Event.src]
      · rcases hc : meta.regularMarketPrice.orElse fun _ => meta.previousClose with _ | c
        · simp [hc, Event.src]
        · rcases env.yahooWrite with _ | _ <;> simp [hc, Event.src]
    · rcases c with _ | c
      · rcases env.yahooNet with _ | meta
        · simp [Event.src]
        · rcases hc : meta.regularMarketPrice.orElse fun _ => meta.previousClose with _ | c
          · simp [hc, Event.src]
          · rcases env.yahooWrite with _ | _ <;> simp [hc, Event.src]
      · simp [Event.src]

lemma fetchGoogle_trace_src (env : FetchEnv) :
    ∀ e ∈ (fetchGooglePeAndEarnings env).2, e.src = Source.google := by
  unfold fetchGooglePeAndEarnings
  rcases env.googleCache with _ | v
  · simp [Event.src]
  · rcases v with _ | ⟨pe, earn⟩
    · rcases env.googleNet with _ | g
      · simp [Event.src]
      · by_cases h : ((match g.peMatch with
            | some n => googlePeSanity n
            | none => none : Option ℚ).isSome || g.earningsMatch.isSome) = true
        · simp only [h]
          rcases env.googleWrite with _ | _ <;> simp [Event.src]
        · simp only [Bool.not_eq_true] at h
          simp [h, Event.src]
    · by_cases h : (pe.isSome || earn.isSome) = true
      · simp [h, Event.src]
      · simp only [Bool.not_eq_true] at h
        simp only [h]
        rcases env.googleNet with _ | g
        · simp [Event.src]
        · by_cases h2 : ((match g.peMatch with
              | some n => googlePeSanity n
              | none => none : Option ℚ).isSome || g.earningsMatch.isSome) = true
          · simp only [h2]
            rcases env.googleWrite with _ | _ <;> simp [Event.src]
          · simp only [Bool.not_eq_true] at h2
            simp [h2, Event.src]

lemma touchesSource_yahoo_fetchYahooCmp (env : FetchEnv) :
    touchesSource Source.yahoo (fetchYahooCmp env).2 = true := by
  unfold fetchYahooCmp touchesSource
  rcases env.yahooCache with _ | v
  · simp
  · rcases v with _ | ⟨c, p⟩
    · rcases env.yahooNet with _ | meta
      · simp
      · rcases hc : meta.regularMarketPrice.orElse fun _ => meta.previousClose with _ | c
        · simp [hc]
        · rcases env.yahooWrite with _ | _ <;> simp [hc]
    · rcases c with _ | c
      · rcases env.yahooNet with _ | meta
        · simp
        · rcases hc : meta.regularMarketPrice.orElse fun _ => meta.previousClose with _ | c
          · simp [hc]
          · rcases env.yahooWrite with _ | _ <;> simp [hc]
      · simp

lemma touchesSource_google_fetchGoogle (env : FetchEnv) :
    touchesSource Source.google (fetchGooglePeAndEarnings env).2 = true := by
  unfold fetchGooglePeAndEarnings touchesSource
  rcases env.googleCache with _ | v
  · simp
  · rcases v with _ | ⟨pe, earn⟩
    · rcases env.googleNet with _ | g
      · simp
      · by_cases h : ((match g.peMatch with
            | some n => googlePeSanity n
            | none => none : Option ℚ).isSome || g.earningsMatch.isSome) = true
        · simp only [h]
          rcases env.googleWrite with _ | _ <;> simp
        · simp only [Bool.not_eq_true] at h
          simp [h]
    · by_cases h : (pe.isSome || earn.isSome) = true
      · simp [h]
      · simp only [Bool.not_eq_true] at h
        simp only [h]
        rcases env.googleNet with _ | g
        · simp
        · by_cases h2 : ((match g.peMatch with
              | some n => googlePeSanity n
              | none => none : Option ℚ).isSome || g.earningsMatch.isSome) = true
          · simp only [h2]
            rcases env.googleWrite with _ | _ <;> simp
          · simp only [Bool.not_eq_true] at h2
            simp [h2]

lemma touchesSource_append (s : Source) (a b : List Event) :
    touchesSource s (a ++ b) = (touchesSource s a || touchesSource s b) := by
  simp [touchesSource]

lemma touchesSource_eq_false (s : Source) (tr : List Event)
    (h : ∀ e ∈ tr, e.src ≠ s) : touchesSource s tr = false := by
  simp only [touchesSource, List.any_eq_false, beq_iff_eq]
  exact h

lemma touchesSource_eq_true (s : Source) (tr : List Event)
    (h : ∃ e ∈ tr, e.src = s) : touchesSource s tr = true := by
  simp only [touchesSource, List.any_eq_true, beq_iff_eq]
  exact h

/-- In the `nseFailed` fallback, Yahoo is always consulted and Google is
consulted exactly when Yahoo yielded a non-null cmp. -/
lemma fetchQuoteFallback_touches (env : FetchEnv) (tr : List Event)
    (htr : ∀ e ∈ tr, e.src = Source.nse) :
    touchesSource Source.yahoo (fetchQuoteFallback env tr).2 = true ∧
    touchesSource Source.google (fetchQuoteFallback env tr).2 = yahooYieldsCmp env := by
  have htrY : touchesSource Source.yahoo tr || true = true := by simp
  have htrG : ∀ s, s ≠ Source.nse → touchesSource s tr = false := by
    intro s hs
    exact touchesSource_eq_false s tr fun e he => by rw [htr e he]; exact fun h => hs h.symm
  unfold fetchQuoteFallback yahooYieldsCmp
  rcases hy : fetchYahooCmp env with ⟨res, ytr⟩
  have hysrc : ∀ e ∈ ytr, e.src = Source.yahoo := by
    have := fetchYahooCmp_trace_src env
    rw [hy] at this
    exact this
  have hyt : touchesSource Source.yahoo ytr = true := by
    have := touchesSource_yahoo_fetchYahooCmp env
    rw [hy] at this
    exact this
  have hyg : touchesSource Source.google ytr = false :=
    touchesSource_eq_false _ _ fun e he => by rw [hysrc e he]; exact fun h => by cases h
  rcases res with _ | ⟨c, p⟩
  · simp [touchesSource_append, hyt, hyg, htrG Source.yahoo (by intro h; cases h),
      htrG Source.google (by intro h; cases h)]
  · rcases c with _ | c
    · simp [touchesSource_append, hyt, hyg, htrG Source.yahoo (by intro h; cases h),
        htrG Source.google (by intro h; cases h)]
    · rcases hg : fetchGooglePeAndEarnings env with ⟨gres, gtr⟩
      have hgt : touchesSource Source.google gtr = true := by
        have := touchesSource_google_fetchGoogle env
        rw [hg] at this
        exact this
      have hgsrc : ∀ e ∈ gtr, e.src = Source.google := by
        have := fetchGoogle_trace_src env
        rw [hg] at this
        exact this
      have hgy : touchesSource Source.yahoo gtr = false :=
        touchesSource_eq_false _ _ fun e he => by rw [hgsrc e he]; exact fun h => by cases h
      rcases gres with _ | ⟨pe, earn⟩ <;>
        simp [touchesSource_append, hyt, hyg, hgt, hgy,
          htrG Source.yahoo (by intro h; cases h), htrG Source.google (by intro h; cases h)]

/-- The NSE network attempt consults Yahoo exactly when the `nseFailed`
flag ends up true, and Google exactly when additionally Yahoo yielded a
non-null cmp. -/
lemma fetchQuoteNet_touches (env : FetchEnv) :
    touchesSource Source.yahoo (fetchQuoteNet env).2 = nseBranchFailed env ∧
    touchesSource Source.google (fetchQuoteNet env).2 =
      (nseBranchFailed env && yahooYieldsCmp env) := by
  unfold fetchQuoteNet nseBranchFailed
  rcases env.nseNet with _ | ⟨status, dataObj⟩
  · have h := fetchQuoteFallback_touches env
      [.cacheRead .nse, .netFetch .nse] (by decide)
    simp [h.1, h.2]
  · by_cases hs : status = 200
    · subst hs
      simp only [ne_eq, not_true_eq_false, if_false, reduceIte]
      rcases dataObj with _ | d
      · have h := fetchQuoteFallback_touches env
          [.cacheRead .nse, .netFetch .nse] (by decide)
        simp [h.1, h.2]
      · by_cases hp : (d.lastPrice.isSome || d.previousClose.isSome) = true
        · simp only [hp, if_true, reduceIte]
          rcases env.nseWrite with _ | _
          · have h := fetchQuoteFallback_touches env
              [.cacheRead .nse, .netFetch .nse, .cacheWrite .nse] (by decide)
            simp [h.1, h.2]
          · simp [touchesSource]
        · simp only [Bool.not_eq_true] at hp
          simp [hp, touchesSource]
    · simp only [ne_eq, hs, not_false_iff, if_true, reduceIte]
      have h := fetchQuoteFallback_touches env
        [.cacheRead .nse, .netFetch .nse] (by decide)
      simp [hs, h.1, h.2]

/-- Environment refuting C1: the NSE fetch throws, Yahoo misses its
cache and its fetch throws (so its cmp is null), while Google would
have data to give — yet Google is never consulted. -/
def envC1 : FetchEnv where
  nseCache := .ok none
  nseNet := .error ()
  nseWrite := .ok ()
  yahooCache := .ok none
  yahooNet := .error ()
  yahooWrite := .ok ()
  googleCache := .ok none
  googleNet := .ok ⟨some 12, some "12 Jan 2024"⟩
  googleWrite := .ok ()

/-- C1 counterexample: Source A (NSE) fails (its fetch throws), Source B
(Yahoo) fails too, and Source C (Google) is NOT consulted — neither its
cache nor its endpoint is touched — contradicting "Source C is consulted
regardless of whether Source B succeeded or failed". -/
theorem c1_counterexample :
    nseBranchFailed envC1 = true ∧
    touchesSource Source.yahoo (fetchQuote envC1).2 = true ∧
    touchesSource Source.google (fetchQuote envC1).2 = false := by decide

/-- C1 amended: on an NSE quote-cache miss (with the cache read not
throwing), Yahoo is consulted exactly when the NSE branch failed
(thrown fetch, non-200 status, non-object body, or a throwing NSE cache
write after a successful parse — but NOT a 200 object response merely
missing its price fields, which returns all-null without any fallback),
and Google is consulted exactly when additionally the Yahoo step
yielded a non-null cmp. -/
theorem c1_amended (env : FetchEnv) (v : Option QuoteResult)
    (hc : env.nseCache = Except.ok v)
    (hmiss : nseCacheUsableHit env = false) :
    touchesSource Source.yahoo (fetchQuote env).2 = nseBranchFailed env ∧
    touchesSource Source.google (fetchQuote env).2 =
      (nseBranchFailed env && yahooYieldsCmp env) := by
  have hnet := fetchQuoteNet_touches env
  unfold fetchQuote
  rw [hc]
  rcases v with _ | q
  · exact hnet
  · unfold nseCacheUsableHit at hmiss
    rw [hc] at hmiss
    dsimp only at hmiss ⊢
    rw [if_neg (by simp [hmiss])]
    exact hnet

/-- Witness for the amended C1 at a concrete input: NSE fetch throws,
Yahoo returns a cmp, so Google is consulted. -/
theorem c1_amended_witness :
    touchesSource Source.yahoo
      (fetchQuote { envC1 with yahooNet := .ok ⟨some 101, some 99⟩ }).2 = true ∧
    touchesSource Source.google
      (fetchQuote { envC1 with yahooNet := .ok ⟨some 101, some 99⟩ }).2 = true := by
  have h := c1_amended { envC1 with yahooNet := .ok ⟨some 101, some 99⟩ } none rfl (by decide)
  rw [h.1, h.2]
  constructor <;> decide

/-- Environment refuting C4: the NSE quote-cache read throws (it sits
outside the try/catch of `fetchQuote`). -/
def envC4 : FetchEnv where
  nseCache := .error ()
  nseNet := .ok (200, some ⟨some 100, some 99, some 20⟩)
  nseWrite := .ok ()
  yahooCache := .ok none
  yahooNet := .ok ⟨some 100, some 99⟩
  yahooWrite := .ok ()
  googleCache := .ok none
  googleNet := .ok ⟨some 20, some "12 Jan 2024"⟩
  googleWrite := .ok ()

/-- C4 counterexample: when the NSE quote-cache read throws, `fetchQuote`
propagates the exception instead of returning the all-null result — so
`fetchQuote` is not total over quote-cache failures. -/
theorem c4_counterexample : (fetchQuote envC4).1 = Except.error () := by decide

lemma fetchYahooCmp_ok (env : FetchEnv) (h : ∃ v, env.yahooCache = Except.ok v) :
    ∃ r, (fetchYahooCmp env).1 = Except.ok r := by
  obtain ⟨v, hv⟩ := h
  unfold fetchYahooCmp
  rw [hv]
  rcases v with _ | ⟨c, p⟩
  · rcases env.yahooNet with _ | meta
    · exact ⟨_, rfl⟩
    · rcases hc : meta.regularMarketPrice.orElse fun _ => meta.previousClose with _ | c
      · simp only [hc]; exact ⟨_, rfl⟩
      · rcases env.yahooWrite with _ | _ <;> (simp only [hc]; exact ⟨_, rfl⟩)
  · rcases c with _ | c
    · rcases env.yahooNet with _ | meta
      · exact ⟨_, rfl⟩
      · rcases hc : meta.regularMarketPrice.orElse fun _ => meta.previousClose with _ | c
        · simp only [hc]; exact ⟨_, rfl⟩
        · rcases env.yahooWrite with _ | _ <;> (simp only [hc]; exact ⟨_, rfl⟩)
    · exact ⟨_, rfl⟩

lemma fetchGoogle_ok (env : FetchEnv) (h : ∃ v, env.googleCache = Except.ok v) :
    ∃ r, (fetchGooglePeAndEarnings env).1 = Except.ok r := by
  obtain ⟨v, hv⟩ := h
  unfold fetchGooglePeAndEarnings
  rw [hv]
  rcases v with _ | ⟨pe, earn⟩
  · rcases env.googleNet with _ | g
    · exact ⟨_, rfl⟩
    · by_cases hq : ((match g.peMatch with
          | some n => googlePeSanity n
          | none => none : Option ℚ).isSome || g.earningsMatch.isSome) = true
      · simp only [hq, if_true, reduceIte]
        rcases env.googleWrite with _ | _ <;> exact ⟨_, rfl⟩
      · simp only [Bool.not_eq_true] at hq
        simp only [hq]
        exact ⟨_, rfl⟩
  · by_cases hp : (pe.isSome || earn.isSome) = true
    · simp only [hp, if_true, reduceIte]
      exact ⟨_, rfl⟩
    · simp only [Bool.not_eq_true] at hp
      simp only [hp, if_false, reduceIte]
      rcases env.googleNet with _ | g
      · exact ⟨_, rfl⟩
      · by_cases hq : ((match g.peMatch with
            | some n => googlePeSanity n
            | none => none : Option ℚ).isSome || g.earningsMatch.isSome) = true
        · simp only [hq, if_true, reduceIte]
          rcases env.googleWrite with _ | _ <;> exact ⟨_, rfl⟩
        · simp only [Bool.not_eq_true] at hq
          simp only [hq]
          exact ⟨_, rfl⟩

lemma fetchQuoteFallback_ok (env : FetchEnv) (tr : List Event)
    (h2 : ∃ v, env.yahooCache = Except.ok v)
    (h3 : ∃ v, env.googleCache = Except.ok v) :
    ∃ q, (fetchQuoteFallback env tr).1 = Except.ok q := by
  unfold fetchQuoteFallback
  obtain ⟨r, hr⟩ := fetchYahooCmp_ok env h2
  rcases hy : fetchYahooCmp env with ⟨res, ytr⟩
  rw [hy] at hr
  simp only at hr
  subst hr
  rcases r with ⟨c, p⟩
  rcases c with _ | c
  · exact ⟨_, rfl⟩
  · obtain ⟨g, hg⟩ := fetchGoogle_ok env h3
    rcases hgg : fetchGooglePeAndEarnings env with ⟨gres, gtr⟩
    rw [hgg] at hg
    simp only at hg
    subst hg
    exact ⟨_, rfl⟩

/-- C4 amended: `fetchQuote` never raises PROVIDED the three quote-cache
reads themselves do not throw (the reads sit outside the try/catch
blocks, so a throwing read propagates); and when additionally every
provider fails (cache misses, NSE and Yahoo fetches throw) the result is
the all-null quote. -/
theorem c4_amended (env : FetchEnv)
    (h1 : ∃ v, env.nseCache = Except.ok v)
    (h2 : ∃ v, env.yahooCache = Except.ok v)
    (h3 : ∃ v, env.googleCache = Except.ok v) :
    (∃ q, (fetchQuote env).1 = Except.ok q) ∧
    (env.nseCache = Except.ok none → env.nseNet = Except.error () →
     env.yahooCache = Except.ok none → env.yahooNet = Except.error () →
     (fetchQuote env).1 = Except.ok QuoteResult.allNull) := by
  have hnet : ∃ q, (fetchQuoteNet env).1 = Except.ok q := by
    unfold fetchQuoteNet
    rcases env.nseNet with _ | ⟨status, dataObj⟩
    · exact fetchQuoteFallback_ok env _ h2 h3
    · by_cases hs : status = 200
      · subst hs
        simp only [ne_eq, not_true_eq_false, if_false, reduceIte]
        rcases dataObj with _ | d
        · exact fetchQuoteFallback_ok env _ h2 h3
        · by_cases hp : (d.lastPrice.isSome || d.previousClose.isSome) = true
          · simp only [hp, if_true, reduceIte]
            rcases env.nseWrite with _ | _
            · exact fetchQuoteFallback_ok env _ h2 h3
            · exact ⟨_, rfl⟩
          · simp only [Bool.not_eq_true] at hp
            simp only [hp]
            exact ⟨_, rfl⟩
      · simp only [ne_eq, hs, not_false_iff, if_true, reduceIte]
        exact fetchQuoteFallback_ok env _ h2 h3
  constructor
  · obtain ⟨v, hv⟩ := h1
    unfold fetchQuote
    rw [hv]
    rcases v with _ | q
    · exact hnet
    · by_cases hq : (q.cmp.isSome || q.previousClose.isSome) = true
      · simp only [hq, if_true, reduceIte]
        exact ⟨_, rfl⟩
      · simp only [Bool.not_eq_true] at hq
        simp only [hq]
        exact hnet
  · intro ha hb hc hd
    unfold fetchQuote fetchQuoteNet fetchQuoteFallback fetchYahooCmp
    rw [ha, hb, hc, hd]

/-- The all-provider-failure environment instantiating the amended C4. -/
def envAllFail : FetchEnv where
  nseCache := .ok none
  nseNet := .error ()
  nseWrite := .ok ()
  yahooCache := .ok none
  yahooNet := .error ()
  yahooWrite := .ok ()
  googleCache := .ok none
  googleNet := .error ()
  googleWrite := .ok ()

/-- Witness for the amended C4: with Redis reads returning misses and
every provider failing, `fetchQuote` returns the all-null quote. -/
theorem c4_amended_witness :
    (∃ q, (fetchQuote envAllFail).1 = Except.ok q) ∧
    (fetchQuote envAllFail).1 = Except.ok QuoteResult.allNull := by
  have h := c4_amended envAllFail ⟨_, rfl⟩ ⟨_, rfl⟩ ⟨_, rfl⟩
  exact ⟨h.1, h.2 rfl rfl rfl rfl⟩

/-- C5: when the NSE path of `fetchQuote` succeeds (usable cache hit, or
successful parse with a price whose NSE cache write goes through), every
event of the call touches only the NSE source: the Yahoo and Google
fetches are not invoked and their quote-cache entries are neither read
nor written. -/
lemma fetchQuoteNet_success_trace (env : FetchEnv)
    (hnn : (match env.nseNet with
      | .ok (status, some d) => status == 200 && (d.lastPrice.isSome || d.previousClose.isSome)
      | _ => false) = true)
    (hw : (match env.nseWrite with | .ok _ => true | .error _ => false) = true) :
    (fetchQuoteNet env).2 =
      [Event.cacheRead Source.nse, Event.netFetch Source.nse,
       Event.cacheWrite Source.nse] := by
  unfold fetchQuoteNet
  rcases hn : env.nseNet with _ | ⟨status, dataObj⟩
  · rw [hn] at hnn; simp at hnn
  · rw [hn] at hnn
    rcases dataObj with _ | d
    · simp at hnn
    · simp only [beq_iff_eq, Bool.and_eq_true] at hnn
      obtain ⟨hs, hp⟩ := hnn
      subst hs
      rcases hwv : env.nseWrite with _ | _
      · rw [hwv] at hw; simp at hw
      · simp [hp]

/-- C5: when the NSE path of `fetchQuote` succeeds (usable cache hit, or
successful parse with a price whose NSE cache write goes through), every
event of the call touches only the NSE source: the Yahoo and Google
fetches are not invoked and their quote-cache entries are neither read
nor written. -/
theorem c5_nse_success_frame (env : FetchEnv) (h : nseSucceeds env = true) :
    touchesSource Source.yahoo (fetchQuote env).2 = false ∧
    touchesSource Source.google (fetchQuote env).2 = false ∧
    ∀ e ∈ (fetchQuote env).2, e.src = Source.nse := by
  have hfin : (fetchQuote env).2 = [Event.cacheRead Source.nse] ∨
      (fetchQuote env).2 =
        [Event.cacheRead Source.nse, Event.netFetch Source.nse,
         Event.cacheWrite Source.nse] := by
    unfold nseSucceeds nseCacheUsableHit at h
    unfold fetchQuote
    rcases hc : env.nseCache with _ | v
    · rw [hc] at h
      simp at h
    · rw [hc] at h
      rcases v with _ | q
      · dsimp only at h ⊢
        simp only [Bool.false_or, Bool.true_and, Bool.and_eq_true] at h
        exact Or.inr (fetchQuoteNet_success_trace env h.1 h.2)
      · dsimp only at h ⊢
        by_cases hq : (q.cmp.isSome || q.previousClose.isSome) = true
        · rw [if_pos hq]
          left; rfl
        · simp only [Bool.not_eq_true] at hq
          rw [if_neg (by simp [hq])]
          rw [hq] at h
          simp only [Bool.false_or, Bool.true_and, Bool.and_eq_true] at h
          exact Or.inr (fetchQuoteNet_success_trace env h.1 h.2)
  rcases hfin with hfin | hfin <;> rw [hfin] <;> exact ⟨by decide, by decide, by decide⟩

/-- Witness for C5: a concrete environment whose NSE cache read returns
a usable quote; the trace is exactly the NSE cache read. -/
theorem c5_witness :
    nseSucceeds { envC4 with nseCache := .ok (some ⟨some 100, some 99, some 20, none⟩) } = true ∧
    touchesSource Source.yahoo
      (fetchQuote { envC4 with nseCache := .ok (some ⟨some 100, some 99, some 20, none⟩) }).2
      = false ∧
    touchesSource Source.google
      (fetchQuote { envC4 with nseCache := .ok (some ⟨some 100, some 99, some 20, none⟩) }).2
      = false := by
  have h := c5_nse_success_frame
    { envC4 with nseCache := .ok (some ⟨some 100, some 99, some 20, none⟩) } (by decide)
  exact ⟨by decide, h.1, h.2.1⟩

/-- `toNseSymbol`: trim, uppercase, and strip a `.NS`/`.BO` suffix
(the exchange argument is unused in the source). -/
def toNseSymbol (symbol : String) (_exchange : String) : String :=
  let s := symbol.trim.toUpper
  if s.endsWith ".NS" || s.endsWith ".BO" then s.dropRight 3 else s

/-- A stock row as loaded from the persistent store (`Number(...)`
conversions of the Decimal columns are modelled as the rational value). -/
structure StockRow where
  id : String
  symbol : String
  name : String
  industry : Option String
  purchasedPrice : ℚ
  purchasedQuantity : ℚ
  investment : ℚ
  exchange : Option String
deriving DecidableEq, Repr

/-- A user with their (possibly absent) portfolio of stock rows. -/
structure UserWithPortfolio where
  id : String
  name : String
  email : String
  portfolio : Option (List StockRow)
deriving DecidableEq, Repr

/-- One enriched stock line of the payload. -/
structure EnrichedStock where
  id : String
  stockName : String
  symbol : String
  industry : Option String
  exchange : String
  purchasePrice : ℚ
  quantity : ℚ
  investment : ℚ
  cmp : Option ℚ
  presentValue : ℚ
  gainLoss : ℚ
  peRatio : Option ℚ
  latestEarnings : Option String
  portfolioPercent : ℚ
deriving DecidableEq, Repr

/-- The enriched-portfolio payload. -/
structure EnrichedPortfolioPayload where
  id : String
  name : String
  email : String
  stocks : List EnrichedStock
  totalInvestment : ℚ
  cachedAt : String
deriving DecidableEq, Repr

/-- The per-stock body of `buildEnrichedPortfolio`'s map: derive the NSE
symbol, take the quote the fetcher returned for it, and compute
presentValue, gainLoss and portfolioPercent with `Math.round(x*100)/100`
rounding. -/
def enrichStock (totalInvestment : ℚ) (quote : String → QuoteResult)
    (s : StockRow) : EnrichedStock :=
  let investment := s.investment
  let qty := s.purchasedQuantity
  let exchange := s.exchange.getD "NSE"
  let nseSymbol := toNseSymbol s.symbol exchange
  let q := quote nseSymbol
  let cmpNum := q.cmp.getD s.purchasedPrice
  let presentValue := (jsRound (cmpNum * qty * 100) : ℚ) / 100
  let gainLoss := (jsRound ((presentValue - investment) * 100) : ℚ) / 100
  let portfolioPercent :=
    if 0 < totalInvestment then (jsRound (investment / totalInvestment * 10000) : ℚ) / 100
    else 0
  { id := s.id, stockName := s.name, symbol := s.symbol, industry := s.industry,
    exchange := exchange, purchasePrice := s.purchasedPrice, quantity := qty,
    investment := investment, cmp := q.cmp, presentValue := presentValue,
    gainLoss := gainLoss, peRatio := q.peRatio,
    latestEarnings := q.latestEarnings, portfolioPercent := portfolioPercent }

/-- `buildEnrichedPortfolio`, parameterized by the quote result the
fetcher yields per NSE symbol and by the `cachedAt` timestamp. Returns
`none` when the portfolio has no stocks. -/
def buildEnrichedPortfolio (quote : String → QuoteResult) (now : String)
    (user : UserWithPortfolio) : Option EnrichedPortfolioPayload :=
  let stocks := user.portfolio.getD []
  if stocks.isEmpty then none
  else
    let totalInvestment := stocks.foldl (fun sum s => sum + s.investment) 0
    some { id := user.id, name := user.name, email := user.email,
           stocks := stocks.map (enrichStock totalInvestment quote),
           totalInvestment := totalInvestment, cachedAt := now }

/-- C2: every stock line of a built portfolio satisfies
`presentValue = round2((cmp ?? purchasePrice) * quantity)` and
`gainLoss = round2(presentValue - investment)`. -/
theorem c2_line_invariants (quote : String → QuoteResult) (now : String)
    (user : UserWithPortfolio) (p : EnrichedPortfolioPayload)
    (hp : buildEnrichedPortfolio quote now user = some p)
    (line : EnrichedStock) (hl : line ∈ p.stocks) :
    line.presentValue = round2 ((line.cmp.getD line.purchasePrice) * line.quantity) ∧
    line.gainLoss = round2 (line.presentValue - line.investment) := by
  unfold buildEnrichedPortfolio at hp
  by_cases he : (user.portfolio.getD []).isEmpty = true
  · rw [if_pos he] at hp
    cases hp
  · rw [if_neg he] at hp
    obtain rfl := (Option.some_inj.mp hp).symm
    simp only [List.mem_map] at hl
    obtain ⟨s, -, rfl⟩ := hl
    exact ⟨rfl, rfl⟩

/-- The TCS scenario row from the spec: purchase price 3500, 10 units,
investment 35000. -/
def tcsRow : StockRow :=
  ⟨"st1", "TCS", "Tata Consultancy Services", some "Technology", 3500, 10, 35000, some "NSE"⟩

/-- A user holding just the TCS row. -/
def tcsUser : UserWithPortfolio := ⟨"u1", "Test", "t@e.st", some [tcsRow]⟩

/-- A quote map answering cmp 3800 for every symbol. -/
def tcsQuote : String → QuoteResult := fun _ => ⟨some 3800, some 3790, some 25, none⟩

/-- Witness for C2 at the concrete TCS scenario. -/
theorem c2_witness :
    ∃ p, buildEnrichedPortfolio tcsQuote "t0" tcsUser = some p ∧
      ∀ line ∈ p.stocks,
        line.presentValue = round2 ((line.cmp.getD line.purchasePrice) * line.quantity) ∧
        line.gainLoss = round2 (line.presentValue - line.investment) := by
  obtain ⟨p, hp⟩ : ∃ p, buildEnrichedPortfolio tcsQuote "t0" tcsUser = some p := ⟨_, rfl⟩
  exact ⟨p, hp, fun line hl => c2_line_invariants tcsQuote "t0" tcsUser p hp line hl⟩

/-- Half-up rounding to two decimals moves a value by at most 1/200. -/
lemma round2_err (x : ℚ) : |round2 x - x| ≤ 1 / 200 := by
  unfold round2 jsRound
  rw [abs_le]
  have h1 : ((⌊x * 100 + 1 / 2⌋ : ℤ) : ℚ) ≤ x * 100 + 1 / 2 := Int.floor_le _
  have h2 : x * 100 + 1 / 2 < ((⌊x * 100 + 1 / 2⌋ : ℤ) : ℚ) + 1 := Int.lt_floor_add_one _
  constructor <;> linarith

/-- Summed per-element deviation bound. -/
lemma sum_map_abs_err (f g : StockRow → ℚ) (c : ℚ) (rows : List StockRow)
    (h : ∀ s ∈ rows, |f s - g s| ≤ c) :
    |(rows.map f).sum - (rows.map g).sum| ≤ rows.length * c := by
  induction rows with
  | nil => simp
  | cons r rs ih =>
    simp only [List.map_cons, List.sum_cons, List.length_cons]
    have h1 := h r (by simp)
    have h2 := ih fun s hs => h s (List.mem_cons_of_mem r hs)
    calc |f r + (rs.map f).sum - (g r + (rs.map g).sum)|
        = |(f r - g r) + ((rs.map f).sum - (rs.map g).sum)| := by
          congr 1
          ring
      _ ≤ |f r - g r| + |(rs.map f).sum - (rs.map g).sum| := abs_add _ _
      _ ≤ c + rs.length * c := add_le_add h1 h2
      _ = (rs.length + 1) * c := by ring
      _ = ((rs.length + 1 : ℕ) : ℚ) * c := by push_cast; ring

lemma foldl_investment_sum (rows : List StockRow) (a : ℚ) :
    rows.foldl (fun sum s => sum + s.investment) a
      = a + (rows.map fun s => s.investment).sum := by
  induction rows generalizing a with
  | nil => simp
  | cons r rs ih => simp [ih, add_assoc]

/-- The 22-row portfolio refuting C6: twenty-one rows of investment 1
and one row of investment 19979 (total 20000), every per-row percentage
landing exactly on a half that rounds up. -/
def pctUser : UserWithPortfolio :=
  ⟨"u2", "Test", "t@e.st",
   some (List.replicate 21 ⟨"sm", "AAA", "Small", none, 1, 1, 1, some "NSE"⟩ ++
     [⟨"bg", "BBB", "Big", none, 19979, 1, 19979, some "NSE"⟩])⟩

/-- The all-null quote map (every provider failed). -/
def nullQuote : String → QuoteResult := fun _ => QuoteResult.allNull

/-- C6 counterexample: a portfolio with totalInvestment 20000 > 0 whose
portfolioPercent values sum to 100.11, farther than 0.1 from 100. -/
theorem c6_counterexample :
    ∃ p, buildEnrichedPortfolio nullQuote "t0" pctUser = some p ∧
      0 < p.totalInvestment ∧
      (p.stocks.map fun l => l.portfolioPercent).sum = 10011 / 100 ∧
      ¬|(p.stocks.map fun l => l.portfolioPercent).sum - 100| ≤ 1 / 10 := by
  refine ⟨_, rfl, ?_, ?_, ?_⟩
  · norm_num [pctUser, buildEnrichedPortfolio, List.replicate]
  · norm_num [pctUser, buildEnrichedPortfolio, enrichStock, nullQuote,
      QuoteResult.allNull, jsRound, List.replicate]
  · norm_num [pctUser, buildEnrichedPortfolio, enrichStock, nullQuote,
      QuoteResult.allNull, jsRound, List.replicate, abs_le]

/-- C6 amended: for portfolios of at most 20 stock lines with positive
totalInvestment, the portfolioPercent values sum to within 0.1 of 100
(each of the at most 20 half-up roundings moves its term by at most
1/200). -/
theorem c6_amended (quote : String → QuoteResult) (now : String)
    (user : UserWithPortfolio) (p : EnrichedPortfolioPayload)
    (hp : buildEnrichedPortfolio quote now user = some p)
    (hn : p.stocks.length ≤ 20)
    (ht : 0 < p.totalInvestment) :
    |(p.stocks.map fun l => l.portfolioPercent).sum - 100| ≤ 1 / 10 := by
  unfold buildEnrichedPortfolio at hp
  by_cases he : (user.portfolio.getD []).isEmpty = true
  · rw [if_pos he] at hp
    cases hp
  · rw [if_neg he] at hp
    obtain rfl := (Option.some_inj.mp hp).symm
    set rows := user.portfolio.getD [] with hrows
    simp only at ht hn ⊢
    set T := rows.foldl (fun sum s => sum + s.investment) 0 with hT
    have hTsum : T = (rows.map fun s => s.investment).sum := by
      rw [hT, foldl_investment_sum, zero_add]
    have hlen : (rows.map (enrichStock T quote)).length = rows.length := by
      simp
    rw [hlen] at hn
    have hpct : ∀ s ∈ rows,
        (enrichStock T quote s).portfolioPercent = round2 (s.investment / T * 100) := by
      intro s _
      simp only [enrichStock]
      rw [if_pos ht]
      unfold round2
      rw [show s.investment / T * 100 * 100 = s.investment / T * 10000 from by ring]
    have hmapmap : ((rows.map (enrichStock T quote)).map fun l => l.portfolioPercent)
        = rows.map fun s => (enrichStock T quote s).portfolioPercent := by
      rw [List.map_map]
      rfl
    rw [hmapmap]
    have hcongr : (rows.map fun s => (enrichStock T quote s).portfolioPercent)
        = rows.map fun s => round2 (s.investment / T * 100) := by
      exact List.map_congr_left hpct
    rw [hcongr]
    have herr : |(rows.map fun s => round2 (s.investment / T * 100)).sum
        - (rows.map fun s => s.investment / T * 100).sum| ≤ rows.length * (1 / 200) :=
      sum_map_abs_err _ _ _ rows fun s _ => round2_err _
    have hsum100 : (rows.map fun s => s.investment / T * 100).sum = 100 := by
      have : (rows.map fun s => s.investment / T * 100)
          = rows.map fun s => s.investment * (100 / T) := by
        apply List.map_congr_left
        intro s _
        ring
      rw [this, List.sum_map_mul_right, ← hTsum]
      have hT0 : T ≠ 0 := ne_of_gt ht
      field_simp
    rw [hsum100] at herr
    have hn20 : (rows.length : ℚ) * (1 / 200) ≤ 20 * (1 / 200) := by
      have : (rows.length : ℚ) ≤ 20 := by exact_mod_cast hn
      nlinarith
    calc |(rows.map fun s => round2 (s.investment / T * 100)).sum - 100|
        ≤ rows.length * (1 / 200) := herr
      _ ≤ 20 * (1 / 200) := hn20
      _ = 1 / 10 := by norm_num

/-- Witness for the amended C6 at the one-line TCS portfolio: the sum of
portfolioPercent is exactly 100, within 0.1 of 100. -/
theorem c6_amended_witness :
    ∃ p, buildEnrichedPortfolio tcsQuote "t0" tcsUser = some p ∧
      p.stocks.length ≤ 20 ∧ 0 < p.totalInvestment ∧
      |(p.stocks.map fun l => l.portfolioPercent).sum - 100| ≤ 1 / 10 := by
  refine ⟨_, rfl, ?_, ?_, ?_⟩
  · simp [tcsUser, tcsRow, buildEnrichedPortfolio]
  · norm_num [tcsUser, tcsRow, buildEnrichedPortfolio]
  · exact c6_amended tcsQuote "t0" tcsUser _ rfl
      (by simp [tcsUser, tcsRow, buildEnrichedPortfolio])
      (by norm_num [tcsUser, tcsRow, buildEnrichedPortfolio])

/-- A stock line as read back from the cached snapshot (JSON, so the
fields inspected by the liveness check may each be absent). -/
structure CachedStockRow where
  cmp : Option ℚ
  purchasePrice : Option ℚ
  peRatio : Option ℚ
deriving DecidableEq, Repr

/-- A cached portfolio snapshot (an object with a `stocks` array). -/
structure CachedSnapshot where
  id : String
  name : String
  email : String
  stocks : List CachedStockRow
  totalInvestment : ℚ
  cachedAt : String
deriving DecidableEq, Repr

/-- The per-row test of the handler's `hasLiveData` check: a positive
cmp together with a positive peRatio or a cmp differing from
purchasePrice by more than 0.01. -/
def rowIsLive (row : CachedStockRow) : Bool :=
  match row.cmp with
  | none => false
  | some cmp =>
    if cmp ≤ 0 then false
    else if (match row.peRatio with | some pe => decide (0 < pe) | none => false) then true
    else match row.purchasePrice with
      | some pp => decide (|cmp - pp| > 1 / 100)
      | none => false

/-- `hasLiveData`: some stock line of the cached body is live. -/
def hasLiveData (stocks : List CachedStockRow) : Bool :=
  stocks.any rowIsLive

/-- Oracle environment for one GET /portfolio-enriched request. -/
structure ServeEnv where
  cacheRead : Except Unit (Option CachedSnapshot)
  dbUser : Except Unit (Option UserWithPortfolio)
  quote : String → QuoteResult
  now : String
  buildThrew : Bool
  cacheWriteOk : Bool

/-- The response of the handler (transport framing elided; on a live
cache hit the body is the cached snapshot, field-normalized). -/
inductive ServeResponse
  | hit (snap : CachedSnapshot)
  | notFound
  | payload (p : EnrichedPortfolioPayload)
  | serverError
deriving DecidableEq, Repr

/-- What one request did: the response, whether holdings were loaded
from the persistent store, how many per-holding quote fetches were
started, and the snapshot written to the portfolio cache (if any). -/
structure ServeResult where
  response : ServeResponse
  dbLoaded : Bool
  quoteFetches : Nat
  cacheWrite : Option EnrichedPortfolioPayload
deriving DecidableEq, Repr

/-- The DB-only fallback line (purchase price standing in for cmp),
from the handler's fallback branch. -/
def fallbackStock (totalInvestment : ℚ) (s : StockRow) : EnrichedStock :=
  let inv := s.investment
  let qty := s.purchasedQuantity
  let price := s.purchasedPrice
  let pv := (jsRound (price * qty * 100) : ℚ) / 100
  let gl := (jsRound ((pv - inv) * 100) : ℚ) / 100
  let pct :=
    if 0 < totalInvestment then (jsRound (inv / totalInvestment * 10000) : ℚ) / 100 else 0
  { id := s.id, stockName := s.name, symbol := s.symbol, industry := s.industry,
    exchange := s.exchange.getD "NSE", purchasePrice := price, quantity := qty,
    investment := inv, cmp := some price, presentValue := pv, gainLoss := gl,
    peRatio := none, latestEarnings := none, portfolioPercent := pct }

/-- The handler's DB-only fallback payload, used when
`buildEnrichedPortfolio` threw or yielded no stocks. -/
def fallbackPayload (now : String) (user : UserWithPortfolio) : EnrichedPortfolioPayload :=
  let stocks := user.portfolio.getD []
  let totalInvestment := stocks.foldl (fun sum s => sum + s.investment) 0
  { id := user.id, name := user.name, email := user.email,
    stocks := stocks.map (fallbackStock totalInvestment),
    totalInvestment := totalInvestment, cachedAt := now }

/-- The rebuild path of the handler (cache miss or stale snapshot):
load the user with holdings; 404 when absent; cache-and-return the
empty snapshot when there are no holdings; otherwise build (starting
one quote fetch per holding), falling back to DB-only data when the
build threw, and write the portfolio cache (a throwing write is
swallowed). -/
def handlerRebuild (env : ServeEnv) : ServeResult :=
  match env.dbUser with
  | .error _ =>
    { response := .serverError, dbLoaded := true, quoteFetches := 0, cacheWrite := none }
  | .ok none =>
    { response := .notFound, dbLoaded := true, quoteFetches := 0, cacheWrite := none }
  | .ok (some user) =>
    let stocks := user.portfolio.getD []
    if stocks.isEmpty then
      let empty : EnrichedPortfolioPayload :=
        { id := user.id, name := user.name, email := user.email,
          stocks := [], totalInvestment := 0, cachedAt := env.now }
      { response := .payload empty, dbLoaded := true, quoteFetches := 0,
        cacheWrite := if env.cacheWriteOk then some empty else none }
    else if env.buildThrew then
      let fb := fallbackPayload env.now user
      { response := .payload fb, dbLoaded := true, quoteFetches := stocks.length,
        cacheWrite := if env.cacheWriteOk then some fb else none }
    else
      match buildEnrichedPortfolio env.quote env.now user with
      | some p =>
        { response := .payload p, dbLoaded := true, quoteFetches := stocks.length,
          cacheWrite := if env.cacheWriteOk then some p else none }
      | none =>
        let fb := fallbackPayload env.now user
        { response := .payload fb, dbLoaded := true, quoteFetches := 0,
          cacheWrite := if env.cacheWriteOk then some fb else none }

/-- GET /portfolio-enriched: a throwing cache read is caught and treated
as a miss; a cached snapshot is served only when `hasLiveData` passes,
otherwise the full rebuild path runs. -/
def portfolioEnrichedHandler (env : ServeEnv) : ServeResult :=
  let cached : Option CachedSnapshot :=
    match env.cacheRead with
    | .error _ => none
    | .ok v => v
  match cached with
  | some body =>
    if hasLiveData body.stocks then
      { response := .hit body, dbLoaded := false, quoteFetches := 0, cacheWrite := none }
    else handlerRebuild env
  | none => handlerRebuild env

/-- C3: on a read that finds a cached snapshot failing `hasLiveData`
(no line with a positive cmp and either a positive peRatio or a cmp
more than 0.01 away from purchasePrice), the handler performs a full
rebuild despite the unexpired cache entry: holdings are loaded, one
quote fetch per holding is started, the portfolio cache is overwritten,
and the response is not a cache hit. -/
theorem c3_stale_snapshot_rebuild (env : ServeEnv) (body : CachedSnapshot)
    (hc : env.cacheRead = Except.ok (some body))
    (hstale : hasLiveData body.stocks = false)
    (user : UserWithPortfolio)
    (hu : env.dbUser = Except.ok (some user))
    (hne : (user.portfolio.getD []).isEmpty = false)
    (hb : env.buildThrew = false)
    (hw : env.cacheWriteOk = true) :
    (portfolioEnrichedHandler env).dbLoaded = true ∧
    (portfolioEnrichedHandler env).quoteFetches = (user.portfolio.getD []).length ∧
    (∃ p, (portfolioEnrichedHandler env).cacheWrite = some p) ∧
    (∀ s, (portfolioEnrichedHandler env).response ≠ ServeResponse.hit s) := by
  have hred : portfolioEnrichedHandler env = handlerRebuild env := by
    unfold portfolioEnrichedHandler
    rw [hc]
    simp only [hstale, Bool.false_eq_true, if_false, reduceIte]
  have hrb : handlerRebuild env =
      { response := .payload ((buildEnrichedPortfolio env.quote env.now user).getD
          (fallbackPayload env.now user)),
        dbLoaded := true,
        quoteFetches := (user.portfolio.getD []).length,
        cacheWrite := some ((buildEnrichedPortfolio env.quote env.now user).getD
          (fallbackPayload env.now user)) } := by
    unfold handlerRebuild
    rw [hu]
    simp only [hne, Bool.false_eq_true, if_false, reduceIte, hb, hw, if_true]
    unfold buildEnrichedPortfolio
    rw [if_neg (by simp [hne])]
    simp
  rw [hred, hrb]
  exact ⟨rfl, rfl, ⟨_, rfl⟩, fun s h => by cases h⟩

/-- A stale one-line snapshot: cmp equal to purchase price, no P/E. -/
def staleSnap : CachedSnapshot :=
  ⟨"u1", "Test", "t@e.st", [⟨some 3500, some 3500, none⟩], 35000, "t0"⟩

/-- The concrete request environment for the C3 witness: unexpired but
stale snapshot in cache, TCS user in the database. -/
def envC3 : ServeEnv :=
  { cacheRead := .ok (some staleSnap), dbUser := .ok (some tcsUser),
    quote := tcsQuote, now := "t1", buildThrew := false, cacheWriteOk := true }

/-- Witness for C3: the stale snapshot triggers holdings load, one
quote fetch and a cache overwrite. -/
theorem c3_witness :
    hasLiveData staleSnap.stocks = false ∧
    (portfolioEnrichedHandler envC3).dbLoaded = true ∧
    (portfolioEnrichedHandler envC3).quoteFetches = 1 ∧
    ∃ p, (portfolioEnrichedHandler envC3).cacheWrite = some p := by
  have hstale : hasLiveData staleSnap.stocks = false := by
    norm_num [hasLiveData, rowIsLive, staleSnap]
  have h := c3_stale_snapshot_rebuild envC3 staleSnap rfl hstale tcsUser rfl
    (by simp [tcsUser]) rfl rfl
  exact ⟨hstale, h.1, h.2.1, h.2.2.1⟩

/-- The zero-holdings user and the cached empty snapshot for C7. -/
def emptyUser : UserWithPortfolio := ⟨"u3", "Empty", "e@e.st", some []⟩

/-- The cached empty snapshot (stocks: [], totalInvestment: 0) as
written by the first call. -/
def emptySnap : CachedSnapshot := ⟨"u3", "Empty", "e@e.st", [], 0, "t0"⟩

/-- The second call's environment for C7: the empty snapshot sits in the
cache (TTL unexpired) and the user still has zero holdings. -/
def envC7 : ServeEnv :=
  { cacheRead := .ok (some emptySnap), dbUser := .ok (some emptyUser),
    quote := nullQuote, now := "t1", buildThrew := false, cacheWriteOk := true }

/-- C7 counterexample: with the empty snapshot cached, the next call is
NOT a cache hit — `[].some(...)` is false, so `hasLiveData` classifies
the empty snapshot stale and the handler reloads holdings and rebuilds,
contradicting "returned unchanged as a cache hit ... without
rebuilding". -/
theorem c7_counterexample :
    (portfolioEnrichedHandler envC7).dbLoaded = true ∧
    (portfolioEnrichedHandler envC7).response =
      ServeResponse.payload ⟨"u3", "Empty", "e@e.st", [], 0, "t1"⟩ := by decide

/-- C7 amended: with zero holdings, every call (including one finding
the previously cached empty snapshot, which never passes the liveness
check) takes the rebuild path — reloading holdings with dbLoaded, but
performing no quote fetch — and re-caches and returns a fresh empty
snapshot {stocks: [], totalInvestment: 0}. -/
theorem c7_amended (env : ServeEnv) (user : UserWithPortfolio) (snap : CachedSnapshot)
    (hc : env.cacheRead = Except.ok (some snap))
    (hsnap : snap.stocks = [])
    (hu : env.dbUser = Except.ok (some user))
    (hempty : user.portfolio.getD [] = [])
    (hw : env.cacheWriteOk = true) :
    (portfolioEnrichedHandler env).dbLoaded = true ∧
    (portfolioEnrichedHandler env).quoteFetches = 0 ∧
    (portfolioEnrichedHandler env).response =
      ServeResponse.payload ⟨user.id, user.name, user.email, [], 0, env.now⟩ ∧
    (portfolioEnrichedHandler env).cacheWrite =
      some ⟨user.id, user.name, user.email, [], 0, env.now⟩ := by
  have hred : portfolioEnrichedHandler env = handlerRebuild env := by
    unfold portfolioEnrichedHandler
    rw [hc]
    simp [hasLiveData, hsnap]
  have hrb : handlerRebuild env =
      { response := .payload ⟨user.id, user.name, user.email, [], 0, env.now⟩,
        dbLoaded := true, quoteFetches := 0,
        cacheWrite := some ⟨user.id, user.name, user.email, [], 0, env.now⟩ } := by
    unfold handlerRebuild
    rw [hu]
    simp [hempty, hw]
  rw [hred, hrb]
  exact ⟨rfl, rfl, rfl, rfl⟩

/-- Witness for the amended C7 at the concrete empty-holdings state. -/
theorem c7_amended_witness :
    (portfolioEnrichedHandler envC7).quoteFetches = 0 ∧
    (portfolioEnrichedHandler envC7).cacheWrite =
      some ⟨"u3", "Empty", "e@e.st", [], 0, "t1"⟩ := by
  have h := c7_amended envC7 emptyUser emptySnap rfl rfl rfl rfl rfl
  exact ⟨h.2.1, h.2.2.2⟩

/-- Per-message oracle outcomes for one iteration of the queue worker
loop: the user lookup, the rebuild, the cache write, and the
acknowledgement call (`.error` is a thrown/rejected promise). -/
structure MsgEnv where
  streamId : String
  userId : String
  findUser : Except Unit (Option UserWithPortfolio)
  buildRes : Except Unit (Option EnrichedPortfolioPayload)
  setCacheRes : Except Unit Unit
  ackRes : Except Unit Unit
deriving DecidableEq, Repr

/-- What became of one dequeued message: acknowledged, or the
acknowledgement call itself threw (which propagates out of the
per-message try/catch, aborting the rest of the batch into the outer
catch). -/
inductive MsgResult
  | acked
  | ackThrew
deriving DecidableEq, Repr

/-- One message of `processBatch`: a throwing user lookup, a missing
user, a throwing rebuild or a throwing cache write all end in an
acknowledgement (the catch block also acks); only a throwing ack leaves
the message unacknowledged. -/
def processMessage (m : MsgEnv) : MsgResult :=
  match m.findUser with
  | .error _ =>
    match m.ackRes with | .ok _ => .acked | .error _ => .ackThrew
  | .ok none =>
    match m.ackRes with | .ok _ => .acked | .error _ => .ackThrew
  | .ok (some _) =>
    match m.buildRes with
    | .error _ =>
      match m.ackRes with | .ok _ => .acked | .error _ => .ackThrew
    | .ok _ =>
      match m.setCacheRes with
      | .error _ =>
        match m.ackRes with | .ok _ => .acked | .error _ => .ackThrew
      | .ok _ =>
        match m.ackRes with | .ok _ => .acked | .error _ => .ackThrew

/-- How the worker schedules its next iteration: immediately (empty
batch or zero delay), after the configured inter-batch delay, or after
the outer catch's 5s error retry. The loop always schedules a next
iteration — there is no terminating outcome. -/
inductive WorkerNext
  | immediate
  | delayed
  | retry
deriving DecidableEq, Repr

/-- Process the batch in order; a throwing ack aborts the remaining
messages (they stay pending for redelivery). -/
def processMessages : List MsgEnv → List MsgResult
  | [] => []
  | m :: rest =>
    match processMessage m with
    | .acked => .acked :: processMessages rest
    | .ackThrew => [.ackThrew]

/-- One `processBatch` pass of the worker: a throwing batch read or a
propagating ack failure lands in the outer catch (5s retry); an empty
batch loops immediately; otherwise the batch is processed and the
worker sleeps the configured delay. -/
def processBatch (readRes : Except Unit (List MsgEnv)) (delayMs : Nat) :
    List MsgResult × WorkerNext :=
  match readRes with
  | .error _ => ([], .retry)
  | .ok [] => ([], .immediate)
  | .ok msgs =>
    let results := processMessages msgs
    if MsgResult.ackThrew ∈ results then (results, .retry)
    else (results, if delayMs > 0 then .delayed else .immediate)

lemma processMessage_acked (m : MsgEnv) (h : m.ackRes = Except.ok ()) :
    processMessage m = MsgResult.acked := by
  unfold processMessage
  rcases m.findUser with _ | u
  · rw [h]
  · rcases u with _ | u
    · rw [h]
    · rcases m.buildRes with _ | p
      · rw [h]
      · rcases m.setCacheRes with _ | _ <;> rw [h]

lemma processMessages_all_acked (msgs : List MsgEnv)
    (h : ∀ m ∈ msgs, m.ackRes = Except.ok ()) :
    processMessages msgs = List.replicate msgs.length MsgResult.acked := by
  induction msgs with
  | nil => rfl
  | cons m rest ih =>
    unfold processMessages
    rw [processMessage_acked m (h m (by simp))]
    rw [ih fun x hx => h x (List.mem_cons_of_mem m hx)]
    rfl

/-- C8: whenever the acknowledgement calls themselves succeed, every
dequeued message of the batch is acknowledged — regardless of whether
its user lookup throws, the user is missing, the rebuild throws, or the
cache write throws — and the worker schedules its next iteration
through the normal delay path, never the error-retry path; no rebuild
error terminates the loop (every branch of `processBatch` schedules a
next iteration). -/
theorem c8_worker_acks_regardless (msgs : List MsgEnv) (delayMs : Nat)
    (hack : ∀ m ∈ msgs, m.ackRes = Except.ok ()) :
    processBatch (Except.ok msgs) delayMs =
      (List.replicate msgs.length MsgResult.acked,
       if msgs.isEmpty then WorkerNext.immediate
       else if delayMs > 0 then WorkerNext.delayed else WorkerNext.immediate) := by
  rcases msgs with _ | ⟨m, rest⟩
  · rfl
  · show (let results := processMessages (m :: rest);
      if MsgResult.ackThrew ∈ results then (results, WorkerNext.retry)
      else (results, if delayMs > 0 then WorkerNext.delayed else WorkerNext.immediate)) = _
    rw [processMessages_all_acked (m :: rest) hack]
    rw [if_neg (by simp [List.mem_replicate])]
    simp

/-- Concrete C8 witness batch: one message whose user no longer exists
and one whose rebuild throws; both get acknowledged and the worker
sleeps the configured delay. -/
def wmsgMissing : MsgEnv :=
  ⟨"1-0", "gone", .ok none, .ok none, .ok (), .ok ()⟩

/-- A message whose rebuild throws (its ack still succeeds). -/
def wmsgBuildThrew : MsgEnv :=
  ⟨"2-0", "u1", .ok (some tcsUser), .error (), .ok (), .ok ()⟩

/-- Witness for C8 at the concrete two-message batch. -/
theorem c8_witness :
    processBatch (Except.ok [wmsgMissing, wmsgBuildThrew]) 5000 =
      ([MsgResult.acked, MsgResult.acked], WorkerNext.delayed) := by
  have h := c8_worker_acks_regardless [wmsgMissing, wmsgBuildThrew] 5000 (by decide)
  simpa using h

/-- Modelled from the spec: the Redis append-only stream with one named
consumer group (the durable work-log primitive of §4.3/§6, whose server
implementation is not part of the repository). Entries carry strictly
increasing ids and a field list; the group tracks the last-delivered id
(the new-messages cursor) and the pending (delivered, unacknowledged)
ids. -/
structure StreamState where
  entries : List (Nat × List (String × String))
  nextId : Nat
  groupExists : Bool
  lastDelivered : Nat
  pending : List Nat
deriving DecidableEq, Repr

/-- Modelled from the spec: XADD with an auto-generated id — append the
entry and return its id. -/
def xadd (st : StreamState) (fields : List (String × String)) : StreamState × Nat :=
  ({ st with entries := st.entries ++ [(st.nextId, fields)], nextId := st.nextId + 1 },
   st.nextId)

/-- Modelled from the spec: XREADGROUP with the `>` cursor — deliver up
to `count` entries with id beyond the group's last-delivered id,
advance the cursor past them and add them to the pending list; a
message already delivered to the group is never returned again by the
`>` cursor. -/
def xreadgroupNew (st : StreamState) (count : Nat) :
    StreamState × List (Nat × List (String × String)) :=
  let fresh := (st.entries.filter fun e => st.lastDelivered < e.1).take count
  ({ st with
      lastDelivered := fresh.foldl (fun acc e => max acc e.1) st.lastDelivered,
      pending := st.pending ++ fresh.map fun e => e.1 },
   fresh)

/-- Modelled from the spec: XACK — drop the given ids from the pending
list. -/
def xack (st : StreamState) (ids : List Nat) : StreamState :=
  { st with pending := st.pending.filter fun i => !ids.contains i }

/-- The process-wide Redis handle: a string key-value store plus the
portfolio-refresh stream. TTL expiry is wall-clock behaviour and is not
modelled; an expired entry is a plain miss. -/
structure RedisStore where
  kv : List (String × String)
  stream : StreamState
deriving DecidableEq, Repr

/-- GET on the key-value part. -/
def kvGet (kv : List (String × String)) (key : String) : Option String :=
  (kv.find? fun e => e.1 == key).map fun e => e.2

/-- SETEX on the key-value part (expiry not modelled). -/
def kvSet (kv : List (String × String)) (key val : String) : List (String × String) :=
  (key, val) :: kv.filter fun e => e.1 != key

/-- `setPortfolioEnrichedCache`: no-op without a Redis client, else
SETEX of the serialized payload under `portfolio:enriched:userId`. -/
def setPortfolioEnrichedCache (redis : Option RedisStore) (userId data : String) :
    Option RedisStore :=
  match redis with
  | none => none
  | some st => some { st with kv := kvSet st.kv ("portfolio:enriched:" ++ userId) data }

/-- `getPortfolioEnrichedCache`: null without a Redis client, else GET
of `portfolio:enriched:userId` (the store only ever holds
JSON.stringify output, so the JSON.parse of a hit succeeds). -/
def getPortfolioEnrichedCache (redis : Option RedisStore) (userId : String) :
    Option String :=
  match redis with
  | none => none
  | some st => kvGet st.kv ("portfolio:enriched:" ++ userId)

/-- The quote-cache key segment per source. -/
def sourceKey : Source → String
  | .nse => "nse"
  | .yahoo => "yahoo"
  | .google => "google"

/-- `getQuoteCache`: null without a Redis client, else GET of
`quote:source:symbol`. -/
def getQuoteCache (redis : Option RedisStore) (symbol : String) (source : Source) :
    Option String :=
  match redis with
  | none => none
  | some st => kvGet st.kv ("quote:" ++ sourceKey source ++ ":" ++ symbol)

/-- `setQuoteCache`: no-op without a Redis client, else SETEX of the
serialized quote under `quote:source:symbol`. -/
def setQuoteCache (redis : Option RedisStore) (symbol : String) (source : Source)
    (data : String) : Option RedisStore :=
  match redis with
  | none => none
  | some st =>
    some { st with kv := kvSet st.kv ("quote:" ++ sourceKey source ++ ":" ++ symbol) data }

/-- `pushPortfolioRefreshToStream`: null without a Redis client, else
XADD of a `userId` field to the refresh stream, returning the id. -/
def pushPortfolioRefreshToStream (redis : Option RedisStore) (userId : String) :
    Option Nat × Option RedisStore :=
  match redis with
  | none => (none, none)
  | some st =>
    let r := xadd st.stream [("userId", userId)]
    (some r.2, some { st with stream := r.1 })

/-- `ensurePortfolioRefreshConsumerGroup`: false without a Redis client;
XGROUP CREATE with MKSTREAM, swallowing BUSYGROUP when the group
already exists — true either way. -/
def ensurePortfolioRefreshConsumerGroup (redis : Option RedisStore) :
    Bool × Option RedisStore :=
  match redis with
  | none => (false, none)
  | some st =>
    if st.stream.groupExists then (true, some st)
    else (true, some { st with stream := { st.stream with groupExists := true, lastDelivered := 0 } })

/-- A parsed refresh message. -/
structure PortfolioRefreshMessage where
  streamId : Nat
  userId : String
deriving DecidableEq, Repr

/-- The field-scan of `readPortfolioRefreshBatch`: walk the field pairs,
keeping the last `userId` value (empty when absent). -/
def extractUserId (fields : List (String × String)) : String :=
  fields.foldl (fun acc f => if f.1 == "userId" then f.2 else acc) ""

/-- `readPortfolioRefreshBatch`: empty without a Redis client, else an
XREADGROUP batch on the `>` cursor, keeping entries that carry a
non-empty userId (blocking and non-blocking variants read identically). -/
def readPortfolioRefreshBatch (redis : Option RedisStore) (batchSize : Nat) :
    List PortfolioRefreshMessage × Option RedisStore :=
  match redis with
  | none => ([], none)
  | some st =>
    let r := xreadgroupNew st.stream batchSize
    let messages := (r.2.map fun e => PortfolioRefreshMessage.mk e.1 (extractUserId e.2)).filter
      fun msg => msg.userId != ""
    (messages, some { st with stream := r.1 })

/-- `ackPortfolioRefresh`: no-op without a Redis client or with no ids,
else XACK of the given stream ids. -/
def ackPortfolioRefresh (redis : Option RedisStore) (streamIds : List Nat) :
    Option RedisStore :=
  match redis with
  | none => none
  | some st =>
    if streamIds.isEmpty then some st
    else some { st with stream := xack st.stream streamIds }

lemma le_foldl_max (l : List (Nat × List (String × String))) (a : Nat) :
    a ≤ l.foldl (fun acc e => max acc e.1) a := by
  induction l generalizing a with
  | nil => exact le_refl a
  | cons e rest ih => exact le_trans (le_max_left a e.1) (ih (max a e.1))

lemma mem_le_foldl_max (l : List (Nat × List (String × String))) :
    ∀ (a : Nat), ∀ e ∈ l, e.1 ≤ l.foldl (fun acc x => max acc x.1) a := by
  induction l with
  | nil => intro a e he; cases he
  | cons x rest ih =>
    intro a e he
    rcases List.mem_cons.mp he with rfl | h
    · exact le_trans (le_max_right a e.1) (le_foldl_max rest _)
    · exact ih (max a x.1) e h

lemma xread_mono (s : StreamState) (n : Nat) :
    s.lastDelivered ≤ (xreadgroupNew s n).1.lastDelivered :=
  le_foldl_max _ _

lemma xread_advances (s : StreamState) (n : Nat) :
    ∀ e ∈ (xreadgroupNew s n).2, e.1 ≤ (xreadgroupNew s n).1.lastDelivered :=
  fun e he => mem_le_foldl_max _ _ e he

/-- Every message a batch read returns has an id beyond the cursor at
the time of the read. -/
lemma read_msg_gt (st : RedisStore) (n : Nat) :
    ∀ msg ∈ (readPortfolioRefreshBatch (some st) n).1,
      st.stream.lastDelivered < msg.streamId := by
  intro msg hmsg
  unfold readPortfolioRefreshBatch xreadgroupNew at hmsg
  simp only [List.mem_filter, List.mem_map] at hmsg
  obtain ⟨⟨e, he, rfl⟩, -⟩ := hmsg
  have he2 : e ∈ (st.stream.entries.filter fun e => st.stream.lastDelivered < e.1) :=
    List.take_subset n _ he
  have := (List.mem_filter.mp he2).2
  simpa using this

/-- One queue operation on the store, expressed through the cached-db
wrappers: a batch read or an acknowledgement. -/
inductive QueueStep : RedisStore → RedisStore → Prop
  | read (n : Nat) (st st2 : RedisStore)
      (h : (readPortfolioRefreshBatch (some st) n).2 = some st2) : QueueStep st st2
  | ack (ids : List Nat) (st st2 : RedisStore)
      (h : ackPortfolioRefresh (some st) ids = some st2) : QueueStep st st2

/-- Reachability by any sequence of reads and acknowledgements. -/
def QueueReach : RedisStore → RedisStore → Prop :=
  Relation.ReflTransGen QueueStep

lemma step_mono {a b : RedisStore} (h : QueueStep a b) :
    a.stream.lastDelivered ≤ b.stream.lastDelivered := by
  cases h with
  | read n st st2 h =>
    have h2 : (readPortfolioRefreshBatch (some a) n).2 =
        some { a with stream := (xreadgroupNew a.stream n).1 } := rfl
    rw [h2, Option.some_inj] at h
    rw [← h]
    exact xread_mono a.stream n
  | ack ids st st2 h =>
    unfold ackPortfolioRefresh at h
    by_cases hi : ids.isEmpty = true
    · simp only [hi, if_true, reduceIte, Option.some_inj] at h
      rw [← h]
    · simp only [hi, Bool.false_eq_true, if_false, reduceIte, Option.some_inj] at h
      rw [← h]
      exact le_refl _

lemma reach_mono {a b : RedisStore} (h : QueueReach a b) :
    a.stream.lastDelivered ≤ b.stream.lastDelivered := by
  induction h with
  | refl => exact le_refl _
  | tail hpre hstep ih => exact le_trans ih (step_mono hstep)

/-- C9: within the single consumer group, a pushed message is delivered
by the next (sufficiently large) batch read exactly once — it is in the
read's output, and the output carries no duplicate stream ids — and
from the post-read store, after any sequence of further reads and
acknowledgements (in particular an `ackPortfolioRefresh` of its
streamId), no batch read ever returns that stream id again. -/
theorem c9_exactly_once_no_redelivery (store : RedisStore)
    (hpw : store.stream.entries.Pairwise fun a b => a.1 < b.1)
    (hlt : ∀ e ∈ store.stream.entries, e.1 < store.stream.nextId)
    (hld : store.stream.lastDelivered < store.stream.nextId)
    (uid : String) (huid : uid ≠ "")
    (id : Nat) (store1 : RedisStore)
    (hpush : pushPortfolioRefreshToStream (some store) uid = (some id, some store1))
    (n : Nat)
    (hn : (store1.stream.entries.filter fun e => store1.stream.lastDelivered < e.1).length ≤ n) :
    (⟨id, uid⟩ : PortfolioRefreshMessage) ∈ (readPortfolioRefreshBatch (some store1) n).1 ∧
    ((readPortfolioRefreshBatch (some store1) n).1.map fun m => m.streamId).Nodup ∧
    ∀ store2 store3, (readPortfolioRefreshBatch (some store1) n).2 = some store2 →
      QueueReach store2 store3 →
      ∀ m2, ∀ msg ∈ (readPortfolioRefreshBatch (some store3) m2).1, msg.streamId ≠ id := by
  obtain ⟨kv, E, N, g, L, P⟩ := store
  simp only [] at hpw hlt hld
  have hpush2 : pushPortfolioRefreshToStream (some ⟨kv, E, N, g, L, P⟩) uid
      = (some N, some ⟨kv, E ++ [(N, [("userId", uid)])], N + 1, g, L, P⟩) := rfl
  rw [hpush2, Prod.mk.injEq, Option.some_inj, Option.some_inj] at hpush
  obtain ⟨hid, hst⟩ := hpush
  subst hid
  subst hst
  have hfilter : ((E ++ [(N, [("userId", uid)])]).filter fun e => L < e.1)
      = (E.filter fun e => L < e.1) ++ [(N, [("userId", uid)])] := by
    rw [List.filter_append]
    congr 1
    simp [hld]
  have hfresh_eq : (xreadgroupNew ⟨E ++ [(N, [("userId", uid)])], N + 1, g, L, P⟩ n).2
      = (E.filter fun e => L < e.1) ++ [(N, [("userId", uid)])] := by
    show (((E ++ [(N, [("userId", uid)])]).filter fun e => L < e.1).take n)
        = (E.filter fun e => L < e.1) ++ [(N, [("userId", uid)])]
    rw [hfilter]
    apply List.take_of_length_le
    rw [← hfilter]
    exact hn
  have hentry_mem : (N, [("userId", uid)]) ∈
      (xreadgroupNew ⟨E ++ [(N, [("userId", uid)])], N + 1, g, L, P⟩ n).2 := by
    rw [hfresh_eq]
    simp
  have hextract : extractUserId [("userId", uid)] = uid := by
    simp [extractUserId]
  refine ⟨?_, ?_, ?_⟩
  · show (⟨N, uid⟩ : PortfolioRefreshMessage) ∈
      (((xreadgroupNew ⟨E ++ [(N, [("userId", uid)])], N + 1, g, L, P⟩ n).2.map
        fun e => PortfolioRefreshMessage.mk e.1 (extractUserId e.2)).filter
          fun msg => msg.userId != "")
    rw [List.mem_filter]
    refine ⟨List.mem_map.mpr ⟨(N, [("userId", uid)]), hentry_mem, by simp [hextract]⟩, ?_⟩
    simpa using huid
  · show ((((xreadgroupNew ⟨E ++ [(N, [("userId", uid)])], N + 1, g, L, P⟩ n).2.map
      fun e => PortfolioRefreshMessage.mk e.1 (extractUserId e.2)).filter
        fun msg => msg.userId != "").map fun m => m.streamId).Nodup
    rw [hfresh_eq]
    have hsub1 : List.Sublist
        (((((E.filter fun e => L < e.1) ++ [(N, [("userId", uid)])]).map
          fun e => PortfolioRefreshMessage.mk e.1 (extractUserId e.2)).filter
            fun msg => msg.userId != "").map fun m => m.streamId)
        ((((E.filter fun e => L < e.1) ++ [(N, [("userId", uid)])]).map
          fun e => PortfolioRefreshMessage.mk e.1 (extractUserId e.2)).map
            fun m => m.streamId) :=
      (List.filter_sublist _).map _
    have heq : ((((E.filter fun e => L < e.1) ++ [(N, [("userId", uid)])]).map
        fun e => PortfolioRefreshMessage.mk e.1 (extractUserId e.2)).map fun m => m.streamId)
        = ((E.filter fun e => L < e.1) ++ [(N, [("userId", uid)])]).map fun e => e.1 := by
      rw [List.map_map]
      rfl
    rw [heq] at hsub1
    have hpw2 : (E ++ [(N, [("userId", uid)])]).Pairwise fun a b => a.1 < b.1 :=
      List.pairwise_append.mpr
        ⟨hpw, List.pairwise_singleton _ _, fun x hx y hy => by
          rw [List.mem_singleton] at hy
          rw [hy]
          exact hlt x hx⟩
    have hnodup : ((E ++ [(N, [("userId", uid)])]).map fun e => e.1).Nodup := by
      have hp3 : ((E ++ [(N, [("userId", uid)])]).map fun e => e.1).Pairwise (· < ·) := by
        rw [List.pairwise_map]
        exact hpw2
      exact hp3.imp Nat.ne_of_lt
    have hsubFL : List.Sublist
        ((E.filter fun e => L < e.1) ++ [(N, [("userId", uid)])])
        (E ++ [(N, [("userId", uid)])]) :=
      (List.filter_sublist E).append (List.Sublist.refl _)
    exact ((hnodup.sublist (hsubFL.map _)).sublist hsub1)
  · intro store2 store3 hst2 hreach m2 msg hmsg
    have h2 : (readPortfolioRefreshBatch
        (some ⟨kv, E ++ [(N, [("userId", uid)])], N + 1, g, L, P⟩) n).2
        = some ⟨kv, (xreadgroupNew ⟨E ++ [(N, [("userId", uid)])], N + 1, g, L, P⟩ n).1⟩ := rfl
    rw [h2, Option.some_inj] at hst2
    have hN_le2 : N ≤ store2.stream.lastDelivered := by
      rw [← hst2]
      exact xread_advances _ n _ hentry_mem
    have hN_le3 : N ≤ store3.stream.lastDelivered :=
      le_trans hN_le2 (reach_mono hreach)
    have hgt := read_msg_gt store3 m2 msg hmsg
    omega

/-- A fresh store whose consumer group exists and whose stream is empty. -/
def emptyQueueStore : RedisStore := ⟨[], ⟨[], 1, true, 0, []⟩⟩

/-- The store after pushing a refresh for "alice". -/
def queueStoreAfterPush : RedisStore :=
  ⟨[], ⟨[(1, [("userId", "alice")])], 2, true, 0, []⟩⟩

/-- The store after the batch read delivered the message. -/
def queueStoreAfterRead : RedisStore :=
  ⟨[], ⟨[(1, [("userId", "alice")])], 2, true, 1, [1]⟩⟩

/-- The store after acknowledging stream id 1. -/
def queueStoreAfterAck : RedisStore :=
  ⟨[], ⟨[(1, [("userId", "alice")])], 2, true, 1, []⟩⟩

/-- Witness for C9 at a concrete run: push, read (delivers the
message), ack, read again (returns nothing with that id). -/
theorem c9_witness :
    (⟨1, "alice"⟩ : PortfolioRefreshMessage) ∈
      (readPortfolioRefreshBatch (some queueStoreAfterPush) 5).1 ∧
    ∀ msg ∈ (readPortfolioRefreshBatch (some queueStoreAfterAck) 5).1,
      msg.streamId ≠ 1 := by
  have h := c9_exactly_once_no_redelivery emptyQueueStore (by simp [emptyQueueStore])
    (by simp [emptyQueueStore]) (by decide) "alice" (by decide) 1 queueStoreAfterPush rfl 5
    (by decide)
  exact ⟨h.1, h.2.2 queueStoreAfterRead queueStoreAfterAck rfl
    (Relation.ReflTransGen.single
      (QueueStep.ack [1] queueStoreAfterRead queueStoreAfterAck rfl)) 5⟩

/-- C10: when no Redis URL is configured (`getRedis` yields no client,
modelled by the `none` store), every exported cached-db operation is a
total no-op with its documented default: the cache reads return null,
the batch read returns the empty list, the push returns null, the group
setup returns false, and the writes and the ack return without touching
any store. -/
theorem c10_no_redis_noop (userId data symbol : String) (source : Source)
    (batchSize : Nat) (streamIds : List Nat) :
    getPortfolioEnrichedCache none userId = none ∧
    getQuoteCache none symbol source = none ∧
    readPortfolioRefreshBatch none batchSize = ([], none) ∧
    pushPortfolioRefreshToStream none userId = (none, none) ∧
    ensurePortfolioRefreshConsumerGroup none = (false, none) ∧
    setPortfolioEnrichedCache none userId data = none ∧
    setQuoteCache none symbol source data = none ∧
    ackPortfolioRefresh none streamIds = none :=
  ⟨rfl, rfl, rfl, rfl, rfl, rfl, rfl, rfl⟩

end EightByte
